import Mathlib

/-!
Shallow embedding of the bulk-import pipeline of `dist/services/EasyPayDataImporter.js`
(class `EasyPayDataImporter`): batch construction (`createBatches`), dry-run analysis
(`analyzeData`), per-record reconciliation (`processClient`), batch processing
(`processBatch`) and the orchestrator (`importAll`), together with the statistics
record mutated along the way.

Modelling conventions:
* JavaScript string-valued record fields that may be `undefined` are `Option String`;
  JS truthiness of such a field (`!clientId`, `client["Email"] && ...`) treats both
  `undefined` and the empty string as falsy, which `strTruthy` reproduces.
* Optional `ImportOptions` booleans are `Option Bool`; JS truthiness (`undefined` and
  `false` falsy, `true` truthy) is `optTrue`.
* `options.batchSize || 100` replaces only falsy values (absent or `0`) by 100;
  negative values pass through, which `effBatchSize` reproduces over `Int`.
* The sqlite adapter (`db.get` / `db.run`) is modelled as an association list from
  `client_id` to the stored record, plus a per-record failure schedule (`Env`): each
  flag makes the corresponding adapter promise reject, which the `try/catch` of
  `processClient` turns into an `errors` increment.
* Adapter calls are recorded in an explicit trace (`Call`) so that "never calls
  insert/update" claims are statements about the trace.
* `Promise.allSettled` inside a batch is modelled by processing the batch's records
  in input order (the event loop serialises all stats increments); batches are
  sequential in the source and in the model.
* Wall-clock time (`processingTime`) is not modelled: the field exists but is never
  written by the model.
* A non-terminating run of the source (the batch loop with a negative batch size on
  a non-empty dataset never terminates) is modelled as `none`; a thrown error
  (missing or unparsable source file) as `some (Except.error ())`.
-/

namespace EasyPayImporter

/-- One row of the external dataset (`jsonData.Sheet1` element). `clientId` models
`client["Client ID"]`, `email` models `client["Email"]`; the remaining ~20
string-valued columns are bundled as an opaque payload `otherFields`, since the
importer copies them verbatim into the store on insert and update. -/
structure Client where
  clientId : Option String
  email : Option String
  otherFields : List String
deriving DecidableEq, Repr

/-- The `ImportStats` record initialised in the constructor and mutated by the
importer (`total`, `imported`, `skipped`, `errors`, `duplicates`, `processingTime`). -/
structure Stats where
  total : Nat
  imported : Nat
  skipped : Nat
  errors : Nat
  duplicates : Nat
  processingTime : Nat
deriving DecidableEq, Repr

/-- The stats value assigned in the constructor (and again by `resetStats`):
all six fields zero. -/
def initialStats : Stats :=
  { total := 0, imported := 0, skipped := 0, errors := 0, duplicates := 0,
    processingTime := 0 }

/-- The `ImportOptions` record: all fields optional (`undefined` = `none`). -/
structure ImportOptions where
  batchSize : Option Int := none
  skipDuplicates : Option Bool := none
  updateExisting : Option Bool := none
  dryRun : Option Bool := none
deriving DecidableEq, Repr

/-- JS truthiness of an optional boolean option: `undefined` and `false` are falsy. -/
def optTrue : Option Bool → Bool
  | some b => b
  | none => false

/-- JS truthiness of an optional string field: `undefined` and `""` are falsy. -/
def strTruthy : Option String → Bool
  | some s => !s.isEmpty
  | none => false

/-- The record's natural key as the importer sees it: `some k` when
`client["Client ID"]` is truthy (present and non-empty), `none` otherwise. -/
def keyOf (c : Client) : Option String :=
  match c.clientId with
  | some s => if s.isEmpty then none else some s
  | none => none

/-- Models `const batchSize = options.batchSize || 100`: absent or `0` (falsy) becomes 100;
every other integer — negative ones included — passes through unchanged. -/
def effBatchSize (o : ImportOptions) : Int :=
  match o.batchSize with
  | some b => if b = 0 then 100 else b
  | none => 100

/-- Iterations of the `createBatches` loop
(`for (i = 0; i < clients.length; i += batchSize)
batches.push(clients.slice(i, i + batchSize))`): while records remain, emit
`clients.slice(i, i + batchSize)` (the `take b` of the remainder) and advance by
`batchSize` (the `drop b`). `fuel` bounds the number of iterations so that the
recursion is structural; with `b ≥ 1` each iteration removes at least one record,
so starting the fuel at `clients.length` never exhausts it. (The JS loop does not
terminate at all for `batchSize = 0`, a value `effBatchSize` never produces.) -/
def createBatchesGo (fuel : Nat) (clients : List Client) (b : Nat) :
    List (List Client) :=
  match fuel, clients with
  | _, [] => []
  | 0, _ :: _ => []
  | fuel + 1, c :: rest => (c :: rest).take b :: createBatchesGo fuel ((c :: rest).drop b) b

/-- The function `createBatches(clients, batchSize)`: runs the batching loop over the whole
input list. -/
def createBatches (clients : List Client) (b : Nat) : List (List Client) :=
  createBatchesGo clients.length clients b

/-- State of the dry-run analysis loop: the `clientIds` set (which receives the raw
`client["Client ID"]` value, `undefined` included, hence `Option String` members),
the `emails` set (which receives only truthy emails), and the running duplicate
count. Sets are modelled as lists with membership. -/
structure AnalyzeAcc where
  clientIds : List (Option String)
  emails : List String
  duplicates : Nat

/-- One iteration of the `for (const client of clients)` body of `analyzeData`:
an unconditional seen-key check/insert, then an independent seen-email check/insert
guarded by the email's truthiness. -/
def analyzeStep (acc : AnalyzeAcc) (client : Client) : AnalyzeAcc :=
  let acc1 :=
    if client.clientId ∈ acc.clientIds then
      { acc with duplicates := acc.duplicates + 1 }
    else
      { acc with clientIds := client.clientId :: acc.clientIds }
  match client.email with
  | some e =>
      if e.isEmpty then acc1
      else if e ∈ acc1.emails then { acc1 with duplicates := acc1.duplicates + 1 }
      else { acc1 with emails := e :: acc1.emails }
  | none => acc1

/-- The function `analyzeData(clients)`: runs the duplicate-detection pass and then assigns
`stats.duplicates = duplicates; stats.skipped = duplicates` (plain assignments,
not increments). `imported`, `errors` and `total` are left as they were. -/
def analyzeData (clients : List Client) (stats : Stats) : Stats :=
  let acc := clients.foldl analyzeStep ⟨[], [], 0⟩
  { stats with duplicates := acc.duplicates, skipped := acc.duplicates }

/-- The target table, keyed by `client_id`: an association list from key to the
stored record. `checkExistingClient` is a lookup; `insertClient` appends a row;
`updateClient` overwrites every non-key column of the matching row. -/
abbrev Store := List (String × Client)

/-- Models `UPDATE easypay_clients SET ... WHERE client_id = ?`: every row whose
`client_id` equals the record's key gets all non-key columns overwritten with the
record's values (the stored value becomes the incoming record; `client_id` itself
is not in the SET list, and on this code path it equals the record's own key). -/
def updateStore (st : Store) (k : String) (c : Client) : Store :=
  st.map (fun kv => if kv.1 = k then (kv.1, c) else kv)

/-- Failure schedule for the adapter calls made on behalf of one record: a `true`
flag makes the corresponding promise (`db.get` existence check, `INSERT`, `UPDATE`)
reject, which `processClient`'s `catch` converts into an `errors` increment. -/
structure Env where
  checkFails : Bool
  insertFails : Bool
  updateFails : Bool
deriving DecidableEq, Repr

/-- The schedule on which no adapter call fails. -/
def Env.ok : Env := ⟨false, false, false⟩

/-- One adapter call, recorded in the run's trace. -/
inductive Call where
  | check (k : String)
  | insert (k : String)
  | update (k : String)
deriving DecidableEq, Repr

/-- State threaded through a run: the stats record, the store, the trace of adapter
calls made so far, and the remaining per-record failure schedule (one `Env` is
consumed per processed record, `Env.ok` once the list is exhausted). -/
structure RunState where
  stats : Stats
  store : Store
  calls : List Call
  envs : List Env
deriving DecidableEq, Repr

/-- The per-record reconciler `processClient(client, options)`:
1. falsy `client["Client ID"]` → `errors++`, no adapter call;
2. existence check (failure caught → `errors++`);
3. record exists: `options.skipDuplicates` truthy → `skipped++`;
   else `options.updateExisting` truthy → `UPDATE` (`imported++` on success,
   `errors++` on failure); else `skipped++`;
4. record absent: `INSERT` (`imported++` on success, `errors++` on failure). -/
def processClient (opts : ImportOptions) (client : Client) (rs : RunState) :
    RunState :=
  let env := rs.envs.headD Env.ok
  let envs := rs.envs.tail
  match keyOf client with
  | none =>
      { rs with stats := { rs.stats with errors := rs.stats.errors + 1 },
                envs := envs }
  | some clientId =>
      if env.checkFails then
        { rs with stats := { rs.stats with errors := rs.stats.errors + 1 },
                  calls := rs.calls ++ [Call.check clientId], envs := envs }
      else
        match rs.store.lookup clientId with
        | some _ =>
            if optTrue opts.skipDuplicates then
              { rs with stats := { rs.stats with skipped := rs.stats.skipped + 1 },
                        calls := rs.calls ++ [Call.check clientId], envs := envs }
            else if optTrue opts.updateExisting then
              if env.updateFails then
                { rs with stats := { rs.stats with errors := rs.stats.errors + 1 },
                          calls := rs.calls ++ [Call.check clientId,
                                                Call.update clientId],
                          envs := envs }
              else
                { rs with stats :=
                            { rs.stats with imported := rs.stats.imported + 1 },
                          store := updateStore rs.store clientId client,
                          calls := rs.calls ++ [Call.check clientId,
                                                Call.update clientId],
                          envs := envs }
            else
              { rs with stats := { rs.stats with skipped := rs.stats.skipped + 1 },
                        calls := rs.calls ++ [Call.check clientId], envs := envs }
        | none =>
            if env.insertFails then
              { rs with stats := { rs.stats with errors := rs.stats.errors + 1 },
                        calls := rs.calls ++ [Call.check clientId,
                                              Call.insert clientId],
                        envs := envs }
            else
              { rs with stats := { rs.stats with imported := rs.stats.imported + 1 },
                        store := rs.store ++ [(clientId, client)],
                        calls := rs.calls ++ [Call.check clientId,
                                              Call.insert clientId],
                        envs := envs }

/-- The function `processBatch(batch, options)`: dispatches `processClient` for every record of
the batch and waits for all of them to settle (`Promise.allSettled`); modelled by
folding over the batch in input order (the event loop serialises the increments). -/
def processBatch (opts : ImportOptions) (batch : List Client) (rs : RunState) :
    RunState :=
  batch.foldl (fun rs c => processClient opts c rs) rs

/-- The batch loop of `importAll`: batches strictly in sequence. -/
def runBatches (opts : ImportOptions) (batches : List (List Client))
    (rs : RunState) : RunState :=
  batches.foldl (fun rs b => processBatch opts b rs) rs

/-- What the orchestrator finds when loading the source file. -/
inductive Source where
  /-- `fs.existsSync` is false: `importAll` throws "JSON file not found". -/
  | missing
  /-- The file exists but `JSON.parse` throws. -/
  | unparsable
  /-- The file parses; `Sheet1` may be absent (`jsonData.Sheet1 || []`). -/
  | parsed (sheet1 : Option (List Client))
deriving DecidableEq, Repr

/-- The orchestrator `importAll(options)`. Returns `none` when the source run does not terminate
(negative effective batch size with a non-empty dataset makes the batch loop spin
forever), `some (Except.error ())` when the source throws (file missing or
unparsable), and `some (Except.ok (stats, store, calls))` on normal completion.
The caller supplies the stats record the importer holds when `importAll` is
entered (`initialStats` on a freshly constructed importer): `importAll` itself
only assigns `total` and then increments, it never resets. -/
def importAll (opts : ImportOptions) (src : Source) (envs : List Env)
    (store : Store) (stats : Stats) :
    Option (Except Unit (Stats × Store × List Call)) :=
  match src with
  | Source.missing => some (Except.error ())
  | Source.unparsable => some (Except.error ())
  | Source.parsed sheet1 =>
      let clients := sheet1.getD []
      let stats1 := { stats with total := clients.length }
      if optTrue opts.dryRun then
        some (Except.ok (analyzeData clients stats1, store, []))
      else
        let b := effBatchSize opts
        if 0 < b then
          let rs := runBatches opts (createBatches clients b.toNat)
            ⟨stats1, store, [], envs⟩
          some (Except.ok (rs.stats, rs.store, rs.calls))
        else if clients = [] then
          some (Except.ok (stats1, store, []))
        else
          none

/-- The function `getStats()`: returns `{ ...this.stats }`, a field-by-field copy of the
importer's stats record. -/
def getStats (s : Stats) : Stats :=
  { total := s.total, imported := s.imported, skipped := s.skipped,
    errors := s.errors, duplicates := s.duplicates,
    processingTime := s.processingTime }

/-! ## Helper lemmas -/

/-- Every processed record adds exactly 1 to `imported + skipped + errors`:
each branch of `processClient` increments exactly one of the three counters. -/
theorem processClient_sum (opts : ImportOptions) (c : Client) (rs : RunState) :
    (processClient opts c rs).stats.imported + (processClient opts c rs).stats.skipped
      + (processClient opts c rs).stats.errors
    = rs.stats.imported + rs.stats.skipped + rs.stats.errors + 1 := by
  unfold processClient
  cases keyOf c
  all_goals dsimp only
  all_goals repeat' split
  all_goals (try dsimp only)
  all_goals omega

/-- The reconciler never touches `total`. -/
theorem processClient_keeps_total (opts : ImportOptions) (c : Client) (rs : RunState) :
    (processClient opts c rs).stats.total = rs.stats.total := by
  unfold processClient
  cases keyOf c
  all_goals dsimp only
  all_goals repeat' split
  all_goals rfl

/-- The reconciler never touches `duplicates`. -/
theorem processClient_keeps_duplicates (opts : ImportOptions) (c : Client)
    (rs : RunState) :
    (processClient opts c rs).stats.duplicates = rs.stats.duplicates := by
  unfold processClient
  cases keyOf c
  all_goals dsimp only
  all_goals repeat' split
  all_goals rfl

/-- A batch of `n` records adds exactly `n` to `imported + skipped + errors`. -/
theorem processBatch_sum (opts : ImportOptions) (batch : List Client) (rs : RunState) :
    (processBatch opts batch rs).stats.imported
      + (processBatch opts batch rs).stats.skipped
      + (processBatch opts batch rs).stats.errors
    = rs.stats.imported + rs.stats.skipped + rs.stats.errors + batch.length := by
  induction batch generalizing rs with
  | nil => rfl
  | cons c rest ih =>
      have step : processBatch opts (c :: rest) rs
          = processBatch opts rest (processClient opts c rs) := rfl
      rw [step, ih (processClient opts c rs), processClient_sum]
      simp only [List.length_cons]
      omega

/-- A batch run never touches `total`. -/
theorem processBatch_keeps_total (opts : ImportOptions) (batch : List Client)
    (rs : RunState) :
    (processBatch opts batch rs).stats.total = rs.stats.total := by
  induction batch generalizing rs with
  | nil => rfl
  | cons c rest ih =>
      have step : processBatch opts (c :: rest) rs
          = processBatch opts rest (processClient opts c rs) := rfl
      rw [step, ih (processClient opts c rs), processClient_keeps_total]

/-- A batch run never touches `duplicates`. -/
theorem processBatch_keeps_duplicates (opts : ImportOptions) (batch : List Client)
    (rs : RunState) :
    (processBatch opts batch rs).stats.duplicates = rs.stats.duplicates := by
  induction batch generalizing rs with
  | nil => rfl
  | cons c rest ih =>
      have step : processBatch opts (c :: rest) rs
          = processBatch opts rest (processClient opts c rs) := rfl
      rw [step, ih (processClient opts c rs), processClient_keeps_duplicates]

/-- A whole run adds exactly the number of records in all batches to
`imported + skipped + errors`. -/
theorem runBatches_sum (opts : ImportOptions) (batches : List (List Client))
    (rs : RunState) :
    (runBatches opts batches rs).stats.imported
      + (runBatches opts batches rs).stats.skipped
      + (runBatches opts batches rs).stats.errors
    = rs.stats.imported + rs.stats.skipped + rs.stats.errors
        + (batches.map List.length).sum := by
  induction batches generalizing rs with
  | nil => rfl
  | cons b rest ih =>
      have step : runBatches opts (b :: rest) rs
          = runBatches opts rest (processBatch opts b rs) := rfl
      rw [step, ih (processBatch opts b rs), processBatch_sum]
      simp only [List.map_cons, List.sum_cons]
      omega

/-- The batch loop never touches `total`. -/
theorem runBatches_keeps_total (opts : ImportOptions) (batches : List (List Client))
    (rs : RunState) :
    (runBatches opts batches rs).stats.total = rs.stats.total := by
  induction batches generalizing rs with
  | nil => rfl
  | cons b rest ih =>
      have step : runBatches opts (b :: rest) rs
          = runBatches opts rest (processBatch opts b rs) := rfl
      rw [step, ih (processBatch opts b rs), processBatch_keeps_total]

/-- The batch loop never touches `duplicates`. -/
theorem runBatches_keeps_duplicates (opts : ImportOptions)
    (batches : List (List Client)) (rs : RunState) :
    (runBatches opts batches rs).stats.duplicates = rs.stats.duplicates := by
  induction batches generalizing rs with
  | nil => rfl
  | cons b rest ih =>
      have step : runBatches opts (b :: rest) rs
          = runBatches opts rest (processBatch opts b rs) := rfl
      rw [step, ih (processBatch opts b rs), processBatch_keeps_duplicates]

/-- Adding one full batch advances the ceiling division by one:
`(N - b + b - 1) / b + 1 = (N + b - 1) / b` for `b ≥ 1`, `N ≥ 1`. -/
theorem ceil_div_step (N b : Nat) (hb : 0 < b) (hN : 0 < N) :
    (N - b + b - 1) / b + 1 = (N + b - 1) / b := by
  rcases Nat.lt_or_ge N b with hlt | hge
  · have h1 : N - b + b - 1 = b - 1 := by omega
    have h2 : N + b - 1 = (N - 1) + b := by omega
    have e1 : (b - 1) / b = 0 := Nat.div_eq_of_lt (by omega)
    have e2 : (N - 1) / b = 0 := Nat.div_eq_of_lt (by omega)
    rw [h1, e1, h2, Nat.add_div_right _ hb, e2]
  · have h2 : N + b - 1 = (N - b + b - 1) + b := by omega
    rw [h2, Nat.add_div_right _ hb]

/-- The batching loop emits nothing on an empty remainder. -/
theorem createBatchesGo_nil (fuel b : Nat) : createBatchesGo fuel [] b = [] := by
  cases fuel <;> rfl

/-- With enough fuel, the emitted batches concatenate back to the input list. -/
theorem createBatchesGo_join (fuel : Nat) (clients : List Client) (b : Nat)
    (hb : 0 < b) (hfuel : clients.length ≤ fuel) :
    (createBatchesGo fuel clients b).flatten = clients := by
  induction fuel generalizing clients with
  | zero =>
      have : clients = [] := List.eq_nil_of_length_eq_zero (by omega)
      subst this
      rfl
  | succ fuel ih =>
      cases clients with
      | nil => rfl
      | cons c rest =>
          show (c :: rest).take b ++ _ = _
          rw [ih ((c :: rest).drop b)
            (by simp only [List.length_drop, List.length_cons] at hfuel ⊢; omega)]
          exact List.take_append_drop b (c :: rest)

/-- The batches produced by `createBatches` concatenate back to the input list. -/
theorem createBatches_join (clients : List Client) (b : Nat) (hb : 0 < b) :
    (createBatches clients b).flatten = clients :=
  createBatchesGo_join clients.length clients b hb le_rfl

/-- With enough fuel, the loop emits exactly the ceiling of `N / b` batches. -/
theorem createBatchesGo_length (fuel : Nat) (clients : List Client) (b : Nat)
    (hb : 0 < b) (hfuel : clients.length ≤ fuel) :
    (createBatchesGo fuel clients b).length = (clients.length + b - 1) / b := by
  induction fuel generalizing clients with
  | zero =>
      have : clients = [] := List.eq_nil_of_length_eq_zero (by omega)
      subst this
      show 0 = (0 + b - 1) / b
      rw [Nat.zero_add, Nat.div_eq_of_lt (by omega)]
  | succ fuel ih =>
      cases clients with
      | nil =>
          show 0 = (0 + b - 1) / b
          rw [Nat.zero_add, Nat.div_eq_of_lt (by omega)]
      | cons c rest =>
          show (createBatchesGo fuel ((c :: rest).drop b) b).length + 1 = _
          rw [ih ((c :: rest).drop b)
            (by simp only [List.length_drop, List.length_cons] at hfuel ⊢; omega)]
          simp only [List.length_drop]
          exact ceil_div_step (c :: rest).length b hb (by simp)

/-- The function `createBatches` produces exactly the ceiling of `N / b` batches. -/
theorem createBatches_length (clients : List Client) (b : Nat) (hb : 0 < b) :
    (createBatches clients b).length = (clients.length + b - 1) / b :=
  createBatchesGo_length clients.length clients b hb le_rfl

/-- With enough fuel, every emitted batch except possibly the last has length
exactly `b`. -/
theorem createBatchesGo_dropLast (fuel : Nat) (clients : List Client) (b : Nat)
    (hb : 0 < b) (hfuel : clients.length ≤ fuel) :
    ∀ batch ∈ (createBatchesGo fuel clients b).dropLast, batch.length = b := by
  induction fuel generalizing clients with
  | zero =>
      have : clients = [] := List.eq_nil_of_length_eq_zero (by omega)
      subst this
      intro batch hmem
      simp [createBatchesGo] at hmem
  | succ fuel ih =>
      cases clients with
      | nil =>
          intro batch hmem
          simp [createBatchesGo] at hmem
      | cons c rest =>
          have hfuel2 : ((c :: rest).drop b).length ≤ fuel := by
            simp only [List.length_drop, List.length_cons] at hfuel ⊢; omega
          show ∀ batch ∈ ((c :: rest).take b
              :: createBatchesGo fuel ((c :: rest).drop b) b).dropLast,
            batch.length = b
          cases hrest : createBatchesGo fuel ((c :: rest).drop b) b with
          | nil => intro batch hmem; simp at hmem
          | cons r rs =>
              intro batch hmem
              have hcons : ((c :: rest).take b :: r :: rs).dropLast
                  = (c :: rest).take b :: (r :: rs).dropLast := rfl
              rw [hcons] at hmem
              rcases List.mem_cons.mp hmem with hmem | hmem
              · subst hmem
                have hdrop : (c :: rest).drop b ≠ [] := by
                  intro hd
                  rw [hd, createBatchesGo_nil] at hrest
                  exact List.noConfusion hrest
                have hblen : b < (c :: rest).length := by
                  have := List.length_pos.mpr hdrop
                  simp only [List.length_drop] at this
                  omega
                simp only [List.length_take]
                omega
              · have hrec := ih ((c :: rest).drop b) hfuel2
                rw [hrest] at hrec
                exact hrec batch hmem

/-- Every batch except possibly the last has length exactly `b`. -/
theorem createBatches_dropLast (clients : List Client) (b : Nat) (hb : 0 < b) :
    ∀ batch ∈ (createBatches clients b).dropLast, batch.length = b :=
  createBatchesGo_dropLast clients.length clients b hb le_rfl

/-- Looking up the updated key after `updateStore` yields the incoming record,
provided the key was present. -/
theorem lookup_updateStore (st : Store) (k : String) (c0 c : Client)
    (h : st.lookup k = some c0) :
    (updateStore st k c).lookup k = some c := by
  induction st with
  | nil => simp [List.lookup] at h
  | cons kv t ih =>
      obtain ⟨a, v⟩ := kv
      simp only [updateStore] at ih ⊢
      by_cases hk : a = k
      · subst hk
        simp only [List.map_cons]
        rw [if_pos trivial]
        simp [List.lookup]
      · have hk' : (k == a) = false := by
          simp only [beq_eq_false_iff_ne, ne_eq]
          exact fun he => hk he.symm
        simp only [List.lookup, hk'] at h
        simp only [List.map_cons]
        have hcond : ¬((a, v).1 = k) := hk
        rw [if_neg hcond]
        simp only [List.lookup, hk']
        exact ih h

/-- With a positive configured `batchSize`, the effective batch size is that value. -/
theorem effBatchSize_of_pos (k : Int) (hk : 0 < k) (o : ImportOptions)
    (h : o.batchSize = some k) : effBatchSize o = k := by
  unfold effBatchSize
  rw [h]
  exact if_neg (by omega)

/-- One analyzer iteration raises `duplicates` by at most 2 (one signal from the
key check, one from the email check). -/
theorem analyzeStep_duplicates_le (acc : AnalyzeAcc) (c : Client) :
    (analyzeStep acc c).duplicates ≤ acc.duplicates + 2 := by
  unfold analyzeStep
  cases c.email
  all_goals dsimp only
  all_goals repeat' split
  all_goals dsimp only
  all_goals omega

/-- Normal completion of a non-dry-run import with a positive configured
`batchSize`: `importAll` runs the batch loop and returns its final state. -/
theorem importAll_ok (opts : ImportOptions) (sheet1 : Option (List Client))
    (envs : List Env) (store : Store) (stats0 : Stats) (k : Int)
    (hd : optTrue opts.dryRun = false) (hbs : opts.batchSize = some k)
    (hk : 0 < k) :
    importAll opts (Source.parsed sheet1) envs store stats0
      = some (Except.ok
          ((runBatches opts
              (createBatches (sheet1.getD []) (effBatchSize opts).toNat)
              ⟨{ stats0 with total := (sheet1.getD []).length },
                store, [], envs⟩).stats,
           (runBatches opts
              (createBatches (sheet1.getD []) (effBatchSize opts).toNat)
              ⟨{ stats0 with total := (sheet1.getD []).length },
                store, [], envs⟩).store,
           (runBatches opts
              (createBatches (sheet1.getD []) (effBatchSize opts).toNat)
              ⟨{ stats0 with total := (sheet1.getD []).length },
                store, [], envs⟩).calls)) := by
  have hb : effBatchSize opts = k := effBatchSize_of_pos k hk opts hbs
  have hbpos : (0 : Int) < effBatchSize opts := by rw [hb]; exact hk
  unfold importAll
  dsimp only
  rw [hd]
  rw [if_neg (by simp), if_pos hbpos]

/-- The effective batch size of a positive configured `batchSize` is positive
after truncation to `Nat`. -/
theorem effBatchSize_toNat_pos (opts : ImportOptions) (k : Int)
    (hbs : opts.batchSize = some k) (hk : 0 < k) :
    0 < (effBatchSize opts).toNat := by
  rw [effBatchSize_of_pos k hk opts hbs]
  omega

/-! ## Claims -/

/-- C1 counterexample: with the store holding key `K` and options
`skipDuplicates: true` (its documented default) plus `updateExisting: true`, the
reconciler takes the skip branch first: `skipped` becomes 1, `imported` stays 0,
only the existence check is called (no update), and the stored record keeps its
old fields — `updateExisting` does not take precedence. -/
theorem C1_counterexample :
    (processClient { skipDuplicates := some true, updateExisting := some true }
        ⟨some "K", none, ["new"]⟩
        ⟨initialStats, [("K", ⟨some "K", none, ["old"]⟩)], [], []⟩).stats.imported = 0
    ∧ (processClient { skipDuplicates := some true, updateExisting := some true }
        ⟨some "K", none, ["new"]⟩
        ⟨initialStats, [("K", ⟨some "K", none, ["old"]⟩)], [], []⟩).stats.skipped = 1
    ∧ (processClient { skipDuplicates := some true, updateExisting := some true }
        ⟨some "K", none, ["new"]⟩
        ⟨initialStats, [("K", ⟨some "K", none, ["old"]⟩)], [], []⟩).calls
      = [Call.check "K"]
    ∧ (processClient { skipDuplicates := some true, updateExisting := some true }
        ⟨some "K", none, ["new"]⟩
        ⟨initialStats, [("K", ⟨some "K", none, ["old"]⟩)], [], []⟩).store
      = [("K", ⟨some "K", none, ["old"]⟩)] := by
  refine ⟨rfl, rfl, rfl, rfl⟩

/-- C1 (amended): `skipDuplicates` takes precedence over `updateExisting`; the
update path runs only when `skipDuplicates` is falsy. For a record whose key `k`
is already in the store, options with `updateExisting` truthy and
`skipDuplicates` falsy, and a non-failing adapter, `processClient` calls the
adapter's update, increments `imported` by exactly 1 (not `skipped`), and
afterwards the record stored under `k` equals the input record (all non-key
fields overwritten). -/
theorem C1_update_on_duplicate (opts : ImportOptions) (c c0 : Client) (k : String)
    (stats : Stats) (store : Store) (calls : List Call) (envs : List Env)
    (hk : keyOf c = some k) (hex : store.lookup k = some c0)
    (hsd : optTrue opts.skipDuplicates = false)
    (hue : optTrue opts.updateExisting = true)
    (henv : envs.headD Env.ok = Env.ok) :
    processClient opts c ⟨stats, store, calls, envs⟩
      = ⟨{ stats with imported := stats.imported + 1 },
         updateStore store k c,
         calls ++ [Call.check k, Call.update k],
         envs.tail⟩
    ∧ (updateStore store k c).lookup k = some c := by
  constructor
  · unfold processClient
    dsimp only
    rw [hk]
    dsimp only
    rw [henv]
    rw [if_neg (by simp [Env.ok]), hex]
    dsimp only
    rw [hsd, hue]
    rw [if_neg (by simp), if_pos rfl, if_neg (by simp [Env.ok])]
  · exact lookup_updateStore store k c0 c hex

/-- C1 witness: updating key `K` with `skipDuplicates` absent and
`updateExisting: true` imports the record and rewrites the stored fields. -/
theorem C1_update_on_duplicate_witness :
    processClient { updateExisting := some true } ⟨some "K", none, ["new"]⟩
        ⟨initialStats, [("K", ⟨some "K", none, ["old"]⟩)], [], []⟩
      = ⟨⟨0, 1, 0, 0, 0, 0⟩, [("K", ⟨some "K", none, ["new"]⟩)],
         [Call.check "K", Call.update "K"], []⟩
    ∧ (updateStore [("K", ⟨some "K", none, ["old"]⟩)] "K"
        ⟨some "K", none, ["new"]⟩).lookup "K" = some ⟨some "K", none, ["new"]⟩ :=
  C1_update_on_duplicate { updateExisting := some true }
    ⟨some "K", none, ["new"]⟩ ⟨some "K", none, ["old"]⟩ "K"
    initialStats [("K", ⟨some "K", none, ["old"]⟩)] [] []
    rfl rfl rfl rfl rfl

/-- C2: a non-dry-run `importAll` with a positive configured `batchSize`,
started on a freshly constructed importer, completes normally with
`imported + skipped + errors = total` and `total` equal to the number of loaded
records — each record increments exactly one of the three counters by exactly 1,
under any adapter failure schedule. -/
theorem C2_counter_conservation (opts : ImportOptions)
    (sheet1 : Option (List Client)) (envs : List Env) (store : Store) (k : Int)
    (hd : optTrue opts.dryRun = false) (hbs : opts.batchSize = some k)
    (hk : 0 < k) :
    ∃ (s : Stats) (store2 : Store) (calls : List Call),
      importAll opts (Source.parsed sheet1) envs store initialStats
        = some (Except.ok (s, store2, calls))
      ∧ s.imported + s.skipped + s.errors = s.total
      ∧ s.total = (sheet1.getD []).length := by
  refine ⟨_, _, _, importAll_ok opts sheet1 envs store initialStats k hd hbs hk,
    ?_, ?_⟩
  · have hsum := runBatches_sum opts
      (createBatches (sheet1.getD []) (effBatchSize opts).toNat)
      ⟨{ initialStats with total := (sheet1.getD []).length }, store, [], envs⟩
    have htot := runBatches_keeps_total opts
      (createBatches (sheet1.getD []) (effBatchSize opts).toNat)
      ⟨{ initialStats with total := (sheet1.getD []).length }, store, [], envs⟩
    have hjoin : (createBatches (sheet1.getD [])
        (effBatchSize opts).toNat).flatten = sheet1.getD [] :=
      createBatches_join _ _ (effBatchSize_toNat_pos opts k hbs hk)
    have hlen : ((createBatches (sheet1.getD [])
        (effBatchSize opts).toNat).map List.length).sum = (sheet1.getD []).length := by
      rw [← List.length_flatten, hjoin]
    rw [hsum, htot]
    simp only [hlen, initialStats]
    omega
  · have htot := runBatches_keeps_total opts
      (createBatches (sheet1.getD []) (effBatchSize opts).toNat)
      ⟨{ initialStats with total := (sheet1.getD []).length }, store, [], envs⟩
    rw [htot]

/-- C2 witness: one fresh record, batch size 1, empty store. -/
theorem C2_counter_conservation_witness :
    ∃ (s : Stats) (store2 : Store) (calls : List Call),
      importAll { batchSize := some 1 }
          (Source.parsed (some [⟨some "K", none, []⟩])) [] [] initialStats
        = some (Except.ok (s, store2, calls))
      ∧ s.imported + s.skipped + s.errors = s.total
      ∧ s.total = ((some [(⟨some "K", none, []⟩ : Client)]).getD []).length :=
  C2_counter_conservation { batchSize := some 1 }
    (some [⟨some "K", none, []⟩]) [] [] 1 rfl rfl (by omega)

/-- C3 counterexample: `options.batchSize || 100` replaces only falsy values, so
a negative `batchSize` reaches the Batcher unclamped: with `batchSize = -1` the
effective batch size is `-1 < 1`, and the batch loop on a one-record dataset
never terminates (modelled as result `none`). -/
theorem C3_counterexample :
    effBatchSize { batchSize := some (-1) } = -1
    ∧ ¬ (1 ≤ effBatchSize { batchSize := some (-1) })
    ∧ importAll { batchSize := some (-1) }
        (Source.parsed (some [⟨some "K", none, []⟩])) [] [] initialStats
      = none :=
  ⟨rfl, by decide, rfl⟩

/-- C3 (amended): the Orchestrator does not clamp `batchSize`; the effective
batch size is `≥ 1` exactly when `options.batchSize` is absent, zero (falsy,
replaced by 100) or itself `≥ 1`, and in that case `createBatches` terminates on
every input list, producing batches that concatenate back to it. Negative values
pass through unclamped. -/
theorem C3_batch_size_clamp (opts : ImportOptions)
    (h : opts.batchSize = none ∨ opts.batchSize = some 0
        ∨ ∃ k : Int, opts.batchSize = some k ∧ 1 ≤ k) :
    1 ≤ effBatchSize opts
    ∧ ∀ clients : List Client,
        (createBatches clients (effBatchSize opts).toNat).flatten = clients := by
  have h1 : 1 ≤ effBatchSize opts := by
    rcases h with h | h | ⟨k, hk, hk1⟩
    · unfold effBatchSize
      rw [h]
      show (1 : Int) ≤ 100
      omega
    · unfold effBatchSize
      rw [h]
      show (1 : Int) ≤ 100
      omega
    · rw [effBatchSize_of_pos k (by omega) opts hk]
      exact hk1
  exact ⟨h1, fun clients => createBatches_join clients _ (by omega)⟩

/-- C3 witness: `batchSize = 2` is accepted and covers a three-record list. -/
theorem C3_batch_size_clamp_witness :
    1 ≤ effBatchSize { batchSize := some 2 }
    ∧ ∀ clients : List Client,
        (createBatches clients (effBatchSize { batchSize := some 2 }).toNat).flatten
          = clients :=
  C3_batch_size_clamp { batchSize := some 2 }
    (Or.inr (Or.inr ⟨2, rfl, by omega⟩))

/-- C4 counterexample: the stats record is created in the constructor and never
reset by `importAll`, so a second `importAll` on the same importer starts from the
first call's counters: importing a one-record dataset whose record lacks a key
gives `errors = 1` after the first call and `errors = 2` — not 1 — after the
second. -/
theorem C4_counterexample :
    importAll {} (Source.parsed (some [⟨none, none, []⟩])) [] [] initialStats
      = some (Except.ok (⟨1, 0, 0, 1, 0, 0⟩, [], []))
    ∧ importAll {} (Source.parsed (some [⟨none, none, []⟩])) [] [] ⟨1, 0, 0, 1, 0, 0⟩
      = some (Except.ok (⟨1, 0, 0, 2, 0, 0⟩, [], [])) :=
  ⟨rfl, rfl⟩

/-- C4 (amended): `importAll` does not start from fresh counters — it operates on
the stats record the importer already holds (initialised once, in the
constructor), only overwriting `total` with the new dataset's length; the
record-level counters accumulate on top of the incoming values across
consecutive calls. The returned stats is the importer's internal record
(`getStats`, by contrast, returns a field-by-field copy, equal as a value). -/
theorem C4_stats_accumulate (opts : ImportOptions) (sheet1 : Option (List Client))
    (envs : List Env) (store : Store) (stats0 : Stats) (k : Int)
    (hd : optTrue opts.dryRun = false) (hbs : opts.batchSize = some k)
    (hk : 0 < k) :
    ∃ (s : Stats) (store2 : Store) (calls : List Call),
      importAll opts (Source.parsed sheet1) envs store stats0
        = some (Except.ok (s, store2, calls))
      ∧ s.imported + s.skipped + s.errors
          = stats0.imported + stats0.skipped + stats0.errors
              + (sheet1.getD []).length
      ∧ s.total = (sheet1.getD []).length
      ∧ s.duplicates = stats0.duplicates
      ∧ getStats s = s := by
  refine ⟨_, _, _, importAll_ok opts sheet1 envs store stats0 k hd hbs hk,
    ?_, ?_, ?_, rfl⟩
  · have hsum := runBatches_sum opts
      (createBatches (sheet1.getD []) (effBatchSize opts).toNat)
      ⟨{ stats0 with total := (sheet1.getD []).length }, store, [], envs⟩
    have hlen : ((createBatches (sheet1.getD [])
        (effBatchSize opts).toNat).map List.length).sum
          = (sheet1.getD []).length := by
      rw [← List.length_flatten,
        createBatches_join _ _ (effBatchSize_toNat_pos opts k hbs hk)]
    rw [hsum]
    simp only [hlen]
  · exact runBatches_keeps_total opts _ _
  · have hdup := runBatches_keeps_duplicates opts
      (createBatches (sheet1.getD []) (effBatchSize opts).toNat)
      ⟨{ stats0 with total := (sheet1.getD []).length }, store, [], envs⟩
    rw [hdup]

/-- C4 witness: a second run over a missing-key record accumulates a second
error on top of the first call's stats. -/
theorem C4_stats_accumulate_witness :
    ∃ (s : Stats) (store2 : Store) (calls : List Call),
      importAll { batchSize := some 1 } (Source.parsed (some [⟨none, none, []⟩]))
          [] [] ⟨1, 0, 0, 1, 0, 0⟩
        = some (Except.ok (s, store2, calls))
      ∧ s.imported + s.skipped + s.errors
          = 0 + 0 + 1 + ((some [(⟨none, none, []⟩ : Client)]).getD []).length
      ∧ s.total = ((some [(⟨none, none, []⟩ : Client)]).getD []).length
      ∧ s.duplicates = 0
      ∧ getStats s = s :=
  C4_stats_accumulate { batchSize := some 1 } (some [⟨none, none, []⟩])
    [] [] ⟨1, 0, 0, 1, 0, 0⟩ 1 rfl rfl (by omega)

/-- C5: `importAll` returns an error to the caller exactly when the source file
cannot be located or parsed; an adapter failure during the existence check,
insert, or update of one record is caught inside the per-record processing,
increments `errors` by exactly 1 for that record only (store and other counters
untouched), and the batch fold continues with the remaining records. -/
theorem C5_error_propagation :
    (∀ (opts : ImportOptions) (src : Source) (envs : List Env) (store : Store)
        (stats : Stats),
      importAll opts src envs store stats = some (Except.error ())
        ↔ src = Source.missing ∨ src = Source.unparsable)
    ∧ (∀ (opts : ImportOptions) (c : Client) (k : String) (stats : Stats)
          (store : Store) (calls : List Call) (env : Env) (envs : List Env),
        keyOf c = some k → env.checkFails = true →
        processClient opts c ⟨stats, store, calls, env :: envs⟩
          = ⟨{ stats with errors := stats.errors + 1 }, store,
             calls ++ [Call.check k], envs⟩)
    ∧ (∀ (opts : ImportOptions) (c : Client) (k : String) (stats : Stats)
          (store : Store) (calls : List Call) (env : Env) (envs : List Env),
        keyOf c = some k → env.checkFails = false → store.lookup k = none →
        env.insertFails = true →
        processClient opts c ⟨stats, store, calls, env :: envs⟩
          = ⟨{ stats with errors := stats.errors + 1 }, store,
             calls ++ [Call.check k, Call.insert k], envs⟩)
    ∧ (∀ (opts : ImportOptions) (c c0 : Client) (k : String) (stats : Stats)
          (store : Store) (calls : List Call) (env : Env) (envs : List Env),
        keyOf c = some k → env.checkFails = false → store.lookup k = some c0 →
        optTrue opts.skipDuplicates = false → optTrue opts.updateExisting = true →
        env.updateFails = true →
        processClient opts c ⟨stats, store, calls, env :: envs⟩
          = ⟨{ stats with errors := stats.errors + 1 }, store,
             calls ++ [Call.check k, Call.update k], envs⟩)
    ∧ (∀ (opts : ImportOptions) (c : Client) (rest : List Client) (rs : RunState),
        processBatch opts (c :: rest) rs
          = processBatch opts rest (processClient opts c rs)) := by
  refine ⟨?_, ?_, ?_, ?_, fun opts c rest rs => rfl⟩
  · intro opts src envs store stats
    constructor
    · intro h
      cases src with
      | missing => exact Or.inl rfl
      | unparsable => exact Or.inr rfl
      | parsed sheet1 =>
          exfalso
          unfold importAll at h
          dsimp only at h
          by_cases hd : optTrue opts.dryRun
          · rw [if_pos hd] at h
            exact Except.noConfusion (Option.some.inj h)
          · rw [if_neg hd] at h
            by_cases hb : (0 : Int) < effBatchSize opts
            · rw [if_pos hb] at h
              exact Except.noConfusion (Option.some.inj h)
            · rw [if_neg hb] at h
              by_cases hc : sheet1.getD [] = []
              · rw [if_pos hc] at h
                exact Except.noConfusion (Option.some.inj h)
              · rw [if_neg hc] at h
                exact Option.noConfusion h
    · intro h
      rcases h with h | h <;> rw [h] <;> rfl
  · intro opts c k stats store calls env envs hk hcf
    unfold processClient
    dsimp only
    rw [hk]
    dsimp only [List.headD, List.tail]
    rw [if_pos hcf]
  · intro opts c k stats store calls env envs hk hcf hlook hif
    unfold processClient
    dsimp only
    rw [hk]
    dsimp only [List.headD, List.tail]
    rw [if_neg (by simp [hcf]), hlook]
    dsimp only
    rw [if_pos hif]
  · intro opts c c0 k stats store calls env envs hk hcf hlook hsd hue huf
    unfold processClient
    dsimp only
    rw [hk]
    dsimp only [List.headD, List.tail]
    rw [if_neg (by simp [hcf]), hlook]
    dsimp only
    rw [hsd, hue]
    rw [if_neg (by simp), if_pos rfl, if_pos huf]

/-- C5 witness: a missing source file is reported as an error, and a failing
existence check for one record is absorbed as a single `errors` increment. -/
theorem C5_error_propagation_witness :
    importAll {} Source.missing [] [] initialStats = some (Except.error ())
    ∧ processClient {} ⟨some "K", none, []⟩
        ⟨initialStats, [], [], [⟨true, false, false⟩]⟩
      = ⟨⟨0, 0, 0, 1, 0, 0⟩, [], [Call.check "K"], []⟩ :=
  ⟨(C5_error_propagation.1 {} Source.missing [] [] initialStats).mpr (Or.inl rfl),
   C5_error_propagation.2.1 {} ⟨some "K", none, []⟩ "K" initialStats [] []
     ⟨true, false, false⟩ [] rfl rfl⟩

/-- C6: with `dryRun` truthy, `importAll` never calls the adapter (empty call
trace, store returned unchanged), and starting from the constructor's fresh stats
the returned stats have `imported = 0`, `errors = 0`, `total = N` and
`skipped = duplicates`. -/
theorem C6_dry_run_non_mutation (opts : ImportOptions) (clients : List Client)
    (envs : List Env) (store : Store) (hd : optTrue opts.dryRun = true) :
    ∃ s : Stats,
      importAll opts (Source.parsed (some clients)) envs store initialStats
        = some (Except.ok (s, store, []))
      ∧ s.imported = 0 ∧ s.errors = 0 ∧ s.total = clients.length
      ∧ s.skipped = s.duplicates := by
  refine ⟨analyzeData clients { initialStats with total := clients.length },
    ?_, rfl, rfl, rfl, rfl⟩
  unfold importAll
  dsimp only [Option.getD]
  rw [if_pos hd]

/-- C6 witness: a concrete dry run over a two-record dataset. -/
theorem C6_dry_run_non_mutation_witness :
    ∃ s : Stats,
      importAll { dryRun := some true }
          (Source.parsed (some [⟨some "A", some "x@y.com", []⟩,
                                ⟨some "A", some "x@y.com", []⟩]))
          [] [("B", ⟨some "B", none, []⟩)] initialStats
        = some (Except.ok (s, [("B", ⟨some "B", none, []⟩)], []))
      ∧ s.imported = 0 ∧ s.errors = 0
      ∧ s.total = [(⟨some "A", some "x@y.com", []⟩ : Client),
                   ⟨some "A", some "x@y.com", []⟩].length
      ∧ s.skipped = s.duplicates :=
  C6_dry_run_non_mutation { dryRun := some true }
    [⟨some "A", some "x@y.com", []⟩, ⟨some "A", some "x@y.com", []⟩]
    [] [("B", ⟨some "B", none, []⟩)] rfl

/-- C7: the dry-run analyzer checks key and email independently against the seen
sets, so a single record can raise `duplicates` by at most 2; on the input
`[(id A, x@y.com), (id A, z@y.com), (id B, x@y.com)]` it reports exactly 2. -/
theorem C7_analyzer_double_counting :
    (analyzeData [⟨some "A", some "x@y.com", []⟩, ⟨some "A", some "z@y.com", []⟩,
        ⟨some "B", some "x@y.com", []⟩] initialStats).duplicates = 2
    ∧ ∀ (acc : AnalyzeAcc) (c : Client),
        (analyzeStep acc c).duplicates ≤ acc.duplicates + 2 :=
  ⟨by decide, analyzeStep_duplicates_le⟩

/-- C8: for `b ≥ 1`, `createBatches` produces `⌈N / b⌉` batches, every batch but
possibly the last has length exactly `b`, and concatenating the batches in order
restores the input list. -/
theorem C8_batch_coverage (l : List Client) (b : Nat) (hb : 1 ≤ b) :
    (createBatches l b).length = (l.length + b - 1) / b
    ∧ (∀ batch ∈ (createBatches l b).dropLast, batch.length = b)
    ∧ (createBatches l b).flatten = l :=
  ⟨createBatches_length l b hb, createBatches_dropLast l b hb,
   createBatches_join l b hb⟩

/-- C8 witness: three records at batch size 2 give batches of sizes 2 and 1. -/
theorem C8_batch_coverage_witness :
    (createBatches [⟨some "A", none, []⟩, ⟨some "B", none, []⟩,
        ⟨some "C", none, []⟩] 2).length
      = ([(⟨some "A", none, []⟩ : Client), ⟨some "B", none, []⟩,
          ⟨some "C", none, []⟩].length + 2 - 1) / 2
    ∧ (∀ batch ∈ (createBatches [⟨some "A", none, []⟩, ⟨some "B", none, []⟩,
          ⟨some "C", none, []⟩] 2).dropLast, batch.length = 2)
    ∧ (createBatches [⟨some "A", none, []⟩, ⟨some "B", none, []⟩,
        ⟨some "C", none, []⟩] 2).flatten
      = [⟨some "A", none, []⟩, ⟨some "B", none, []⟩, ⟨some "C", none, []⟩] :=
  C8_batch_coverage [⟨some "A", none, []⟩, ⟨some "B", none, []⟩,
    ⟨some "C", none, []⟩] 2 (by omega)

/-- C9: a record whose `Client ID` is absent or the empty string increments
`errors` by exactly 1 and changes nothing else: `imported` and `skipped` keep
their values, the store is untouched, and no adapter call is recorded. -/
theorem C9_missing_key (opts : ImportOptions) (c : Client) (rs : RunState)
    (h : c.clientId = none ∨ c.clientId = some "") :
    processClient opts c rs
      = { rs with stats := { rs.stats with errors := rs.stats.errors + 1 },
                  envs := rs.envs.tail } := by
  have hk : keyOf c = none := by
    rcases h with h | h
    · simp [keyOf, h]
    · simp only [keyOf, h]
      rfl
  unfold processClient
  rw [hk]

/-- C9 witness: an empty-string key on a fresh state yields exactly one error. -/
theorem C9_missing_key_witness :
    processClient {} ⟨some "", some "x@y.com", ["payload"]⟩
        ⟨initialStats, [("K", ⟨some "K", none, []⟩)], [], []⟩
      = ⟨⟨0, 0, 0, 1, 0, 0⟩, [("K", ⟨some "K", none, []⟩)], [], []⟩ :=
  C9_missing_key {} ⟨some "", some "x@y.com", ["payload"]⟩
    ⟨initialStats, [("K", ⟨some "K", none, []⟩)], [], []⟩ (Or.inr rfl)

/-- C10: a parsed source without a `Sheet1` array is treated as an empty dataset:
`importAll` returns normally with every counter 0, `total = 0`, an unchanged
store and an empty adapter-call trace — it does not raise a source error. -/
theorem C10_missing_sheet1 (opts : ImportOptions) (envs : List Env) (store : Store) :
    importAll opts (Source.parsed none) envs store initialStats
      = some (Except.ok (initialStats, store, [])) := by
  unfold importAll
  dsimp only [Option.getD]
  by_cases hd : optTrue opts.dryRun
  · rw [if_pos hd]
    rfl
  · rw [if_neg hd]
    by_cases hb : (0 : Int) < effBatchSize opts
    · rw [if_pos hb]
      rfl
    · rw [if_neg hb, if_pos rfl]
      rfl

end EasyPayImporter
